import Mathlib

/-!
Verification of the `remotetool` driver (`go/cmd/remotetool/main.go`).

The development shallowly embeds the driver's pure control logic:

* the string utilities it relies on (`strings.Split` on a one-character
  separator, `strings.TrimSpace`, `bufio.ScanLines`), modelled over
  `List Char`;
* the `ComputeTree` batch-spec loop as a step function `processLine` on an
  accumulating `InputSpec`, folded over the file's lines by `runLines`,
  recording every `ComputeMerkleTree` call that the loop performs and
  whether the program terminates with a fatal `log.Exitf`;
* the `main` flag-validation and operation dispatch as a total function
  `mainDispatch` from the relevant flag values to the externally visible
  action that `main` takes.

Record-level semantics (`splitRecords`, `recordSpecFrom`, `specRecords`) are
the specification-side decomposition of a batch file into blank-line
separated records, used to compare the loop against its documented
behaviour.
-/

set_option autoImplicit false

namespace Remotetool

/-- The characters reported as white space by Go's `unicode.IsSpace`
(the set trimmed by `strings.TrimSpace`). -/
def goSpaceChars : List Char :=
  [Char.ofNat 9, Char.ofNat 10, Char.ofNat 11, Char.ofNat 12, Char.ofNat 13,
   Char.ofNat 32, Char.ofNat 133, Char.ofNat 160, Char.ofNat 5760,
   Char.ofNat 8192, Char.ofNat 8193, Char.ofNat 8194, Char.ofNat 8195,
   Char.ofNat 8196, Char.ofNat 8197, Char.ofNat 8198, Char.ofNat 8199,
   Char.ofNat 8200, Char.ofNat 8201, Char.ofNat 8202, Char.ofNat 8232,
   Char.ofNat 8233, Char.ofNat 8239, Char.ofNat 8287, Char.ofNat 12288]

/-- Go `unicode.IsSpace`, as a Boolean predicate on characters. -/
def goIsSpace (c : Char) : Bool :=
  goSpaceChars.contains c

/-- Go `strings.TrimSpace`: drop white space from both ends of a string. -/
def trimSpace (l : List Char) : List Char :=
  ((l.dropWhile goIsSpace).reverse.dropWhile goIsSpace).reverse

/-- Go `strings.Split(s, sep)` for a one-character separator `sep`:
the list of maximal runs between occurrences of `sep` (always one more
piece than there are occurrences of `sep`). -/
def splitOnChar (sep : Char) : List Char → List (List Char)
  | [] => [[]]
  | c :: rest =>
    if c = sep then [] :: splitOnChar sep rest
    else
      match splitOnChar sep rest with
      | [] => [[c]]
      | p :: ps => (c :: p) :: ps

/-- The `dropCR` helper of Go's `bufio.ScanLines`: strip one trailing
carriage return from a line. -/
def dropCR (l : List Char) : List Char :=
  if l.getLast? = some (Char.ofNat 13) then l.dropLast else l

/-- Go `bufio.Scanner` with `bufio.ScanLines`: the sequence of lines
delivered by `scanner.Text()`. Lines are separated by a newline, a final
fragment without a trailing newline is still delivered, a trailing newline
does not produce an extra empty line, and each line has a trailing
carriage return stripped. -/
def scanLines (s : List Char) : List (List Char) :=
  if s.isEmpty then []
  else
    (if s.getLast? = some (Char.ofNat 10) then
       (splitOnChar (Char.ofNat 10) s).dropLast
     else
       splitOnChar (Char.ofNat 10) s).map dropCR

/-- The fields of `command.VirtualInput` relevant to this driver: a target
path, optional literal contents, and the executable bit.
`ComputeTree` constructs these with only `Path` set, so contents stay
`none` and `isExecutable` stays `false`. -/
structure VirtualInput where
  path : List Char
  contents : Option (List Nat)
  isExecutable : Bool
deriving DecidableEq

/-- The fields of `command.InputSpec` used by `ComputeTree`: the ordered
explicit input paths and the ordered virtual inputs. -/
structure InputSpec where
  inputs : List (List Char)
  virtualInputs : List VirtualInput
deriving DecidableEq

/-- The zero value `command.InputSpec{}`. -/
def InputSpec.emptySpec : InputSpec :=
  { inputs := [], virtualInputs := [] }

/-- The message of the fatal `log.Exitf("broken line %v", txt)`. -/
def brokenLineMsg (txt : List Char) : List Char :=
  ("broken line ").toList ++ txt

/-- Result of processing one line of the batch spec file: either the loop
continues with a new accumulated spec, having triggered at most one
`ComputeMerkleTree` call (`built`), or the program terminates via
`log.Exitf` with the given message. -/
inductive StepResult where
  | ok (is : InputSpec) (built : Option InputSpec)
  | fatal (msg : List Char)
deriving DecidableEq

/-- One iteration of the `ComputeTree` scanner loop on line `txt` with
accumulated spec `is` (`go/cmd/remotetool/main.go`, lines 187-214):
a blank line triggers a `ComputeMerkleTree` call when the accumulated spec
has any input or virtual input and resets the spec; otherwise the line is
split at every ':', must have exactly two pieces, and the trimmed key
selects whether the trimmed value is appended to `inputs` or wrapped in a
`VirtualInput` on `virtualInputs`; anything else is a fatal broken line. -/
def processLine (is : InputSpec) (txt : List Char) : StepResult :=
  if trimSpace txt = [] then
    if is.inputs.length ≠ 0 ∨ is.virtualInputs.length ≠ 0 then
      StepResult.ok InputSpec.emptySpec (some is)
    else
      StepResult.ok is none
  else
    if (splitOnChar (Char.ofNat 58) txt).length ≠ 2 then
      StepResult.fatal (brokenLineMsg txt)
    else
      if trimSpace ((splitOnChar (Char.ofNat 58) txt).headD []) = ("inputs").toList then
        StepResult.ok
          { is with inputs :=
              is.inputs ++ [trimSpace (((splitOnChar (Char.ofNat 58) txt).drop 1).headD [])] }
          none
      else if trimSpace ((splitOnChar (Char.ofNat 58) txt).headD []) = ("path").toList then
        StepResult.ok
          { is with virtualInputs :=
              is.virtualInputs ++
                [{ path := trimSpace (((splitOnChar (Char.ofNat 58) txt).drop 1).headD []),
                   contents := none, isExecutable := false }] }
          none
      else
        StepResult.fatal (brokenLineMsg txt)

/-- Outcome of running the `ComputeTree` loop over a list of lines:
`ok builds final` records the `ComputeMerkleTree` calls in order plus the
accumulated spec left over at end of file (which the loop discards);
`fatal builds msg` records the calls made before a fatal broken line. -/
inductive RunResult where
  | ok (builds : List InputSpec) (final : InputSpec)
  | fatal (builds : List InputSpec) (msg : List Char)
deriving DecidableEq

/-- The `ComputeTree` scanner loop over the lines of the batch spec file,
starting from accumulated spec `is`. -/
def runLines : InputSpec → List (List Char) → RunResult
  | is, [] => RunResult.ok [] is
  | is, txt :: rest =>
    match processLine is txt with
    | StepResult.fatal msg => RunResult.fatal [] msg
    | StepResult.ok is2 b =>
      match runLines is2 rest with
      | RunResult.ok builds fin => RunResult.ok (b.toList ++ builds) fin
      | RunResult.fatal builds msg => RunResult.fatal (b.toList ++ builds) msg

/-- The `ComputeMerkleTree` calls `ComputeTree` performs on a batch file
given as a list of lines (starting, as the code does, from the zero spec). -/
def computeTreeBuilds (lines : List (List Char)) : List InputSpec :=
  match runLines InputSpec.emptySpec lines with
  | RunResult.ok builds _ => builds
  | RunResult.fatal builds _ => builds

/-- `ComputeTree` on the raw byte content of the batch spec file:
the scanner splits it into lines and the loop processes them. -/
def computeTreeRun (content : List Char) : RunResult :=
  runLines InputSpec.emptySpec (scanLines content)

/-- A parsed non-blank line of the batch spec: either an explicit input
path (`inputs: v`) or a virtual input path (`path: v`). -/
inductive Entry where
  | input (v : List Char)
  | vpath (v : List Char)
deriving DecidableEq

/-- The parsing part of the loop body, in isolation: the entry a non-blank
line denotes, or `none` when the loop would call `log.Exitf`. -/
def parseLine (txt : List Char) : Option Entry :=
  if (splitOnChar (Char.ofNat 58) txt).length ≠ 2 then none
  else
    if trimSpace ((splitOnChar (Char.ofNat 58) txt).headD []) = ("inputs").toList then
      some (Entry.input (trimSpace (((splitOnChar (Char.ofNat 58) txt).drop 1).headD [])))
    else if trimSpace ((splitOnChar (Char.ofNat 58) txt).headD []) = ("path").toList then
      some (Entry.vpath (trimSpace (((splitOnChar (Char.ofNat 58) txt).drop 1).headD [])))
    else none

/-- Appending one parsed entry to the accumulated spec, as the loop does. -/
def addEntry (is : InputSpec) : Entry → InputSpec
  | Entry.input v => { is with inputs := is.inputs ++ [v] }
  | Entry.vpath v =>
      { is with virtualInputs :=
          is.virtualInputs ++ [{ path := v, contents := none, isExecutable := false }] }

/-- Folding one record's lines into an accumulated spec (blank or
unparsable lines contribute nothing; within a record all lines are
non-blank and, when well formed, parse). -/
def recordStep (is : InputSpec) (txt : List Char) : InputSpec :=
  match parseLine txt with
  | some e => addEntry is e
  | none => is

/-- The spec a record (list of lines) accumulates, starting from `is`. -/
def recordSpecFrom (is : InputSpec) (r : List (List Char)) : InputSpec :=
  r.foldl recordStep is

/-- Decomposition of the file's lines into blank-line separated records:
the records closed by a blank terminator, in order, and the trailing
record after the last blank line (empty if the file ends at a blank). -/
def splitRecords : List (List Char) → List (List (List Char)) × List (List Char)
  | [] => ([], [])
  | l :: rest =>
    if trimSpace l = [] then ([] :: (splitRecords rest).1, (splitRecords rest).2)
    else
      match splitRecords rest with
      | (r :: cs, tr) => ((l :: r) :: cs, tr)
      | ([], tr) => ([], l :: tr)

/-- Modelled from the spec's words (refinement side): the records of a
batch spec file are its maximal blank-line separated groups of lines,
including a final record that is not followed by a blank line. -/
def specRecords (lines : List (List Char)) : List (List (List Char)) :=
  (splitRecords lines).1 ++
    (if (splitRecords lines).2.isEmpty then [] else [(splitRecords lines).2])

/-- Record-level description of the loop's `ComputeMerkleTree` calls: one
call per blank-terminated record whose accumulated spec is non-empty, in
record order; the first record continues from `is`, later records start
from the zero spec. -/
def closedBuilds (is : InputSpec) : List (List (List Char)) → List InputSpec
  | [] => []
  | r :: rs =>
      (if recordSpecFrom is r = InputSpec.emptySpec then []
       else [recordSpecFrom is r]) ++
        closedBuilds InputSpec.emptySpec rs

/-- Record-level description of the spec still accumulated at end of file:
the trailing record's spec, continued from `is` only when no blank line
occurred before it. -/
def trailingSpec (is : InputSpec) (closed : List (List (List Char)))
    (tr : List (List Char)) : InputSpec :=
  match closed with
  | [] => recordSpecFrom is tr
  | _ :: _ => recordSpecFrom InputSpec.emptySpec tr

/-- The operations of the `remotetool` driver (`OpType` constants). -/
inductive Op where
  | downloadActionResult
  | showAction
  | downloadBlob
  | downloadDir
  | reexecuteAction
  | checkDeterminism
  | uploadBlob
  | computeTree
deriving DecidableEq

/-- The string value of each `OpType` constant. -/
def opName : Op → List Char
  | Op.downloadActionResult => ("download_action_result").toList
  | Op.showAction => ("show_action").toList
  | Op.downloadBlob => ("download_blob").toList
  | Op.downloadDir => ("download_dir").toList
  | Op.reexecuteAction => ("reexecute_action").toList
  | Op.checkDeterminism => ("check_determinism").toList
  | Op.uploadBlob => ("upload_blob").toList
  | Op.computeTree => ("compute_tree").toList

/-- The `supportedOps` slice advertised in the `--operation` flag help and
in the unsupported-operation error (`main.go`, lines 56-64). Note that it
omits `computeTree`. -/
def supportedOps : List Op :=
  [Op.downloadActionResult, Op.showAction, Op.downloadBlob, Op.downloadDir,
   Op.reexecuteAction, Op.checkDeterminism, Op.uploadBlob]

/-- Matching of the `--operation` string against the `switch` cases of
`main`: the operation constant whose string value equals `s`, if any. -/
def parseOp (s : List Char) : Option Op :=
  if s = opName Op.downloadActionResult then some Op.downloadActionResult
  else if s = opName Op.downloadBlob then some Op.downloadBlob
  else if s = opName Op.downloadDir then some Op.downloadDir
  else if s = opName Op.showAction then some Op.showAction
  else if s = opName Op.reexecuteAction then some Op.reexecuteAction
  else if s = opName Op.checkDeterminism then some Op.checkDeterminism
  else if s = opName Op.uploadBlob then some Op.uploadBlob
  else if s = opName Op.computeTree then some Op.computeTree
  else none

/-- The flag values `main` consults: `--operation`, `--digest`, `--path`,
`--input_root` and `--exec_attempts` (a Go `int`, so it may be negative). -/
structure Flags where
  operation : List Char
  digest : List Char
  pathFlag : List Char
  inputRoot : List Char
  execAttempts : Int
deriving DecidableEq

/-- The externally visible action `main` takes after flag validation:
either one of the fatal `log.Exitf` validations fires, or exactly one
client call is dispatched with the given arguments. -/
inductive MainAction where
  | exitOperationMissing
  | exitAttemptsInvalid
  | exitDigestMissing
  | exitPathMissing
  | exitUnsupported (op : List Char) (listed : List Op)
  | callDownloadActionResult (digest destPath : List Char)
  | callDownloadBlob (digest destPath : List Char)
  | callDownloadDirectory (digest destPath : List Char)
  | callShowAction (digest : List Char)
  | callReexecuteAction (digest inputRoot : List Char)
  | callCheckDeterminism (digest inputRoot : List Char) (attempts : Int)
  | callUploadBlob (destPath : List Char)
  | callComputeTree (specPath : List Char)
deriving DecidableEq

/-- The control flow of `main` (`main.go`, lines 75-154): reject a missing
`--operation`, then reject `--exec_attempts <= 0` for every operation,
then dispatch on the operation string; `getDigestFlag`/`getPathFlag` exit
when the corresponding flag is empty, and an operation matching none of
the `switch` cases exits listing `supportedOps`. `ComputeTree` itself
reads `getPathFlag` for the batch file. The `callDownloadBlob` action
subsequently writes the returned bytes to standard output. -/
def mainDispatch (f : Flags) : MainAction :=
  if f.operation = [] then MainAction.exitOperationMissing
  else if f.execAttempts ≤ 0 then MainAction.exitAttemptsInvalid
  else
    match parseOp f.operation with
    | some Op.downloadActionResult =>
        if f.digest = [] then MainAction.exitDigestMissing
        else if f.pathFlag = [] then MainAction.exitPathMissing
        else MainAction.callDownloadActionResult f.digest f.pathFlag
    | some Op.downloadBlob =>
        if f.digest = [] then MainAction.exitDigestMissing
        else if f.pathFlag = [] then MainAction.exitPathMissing
        else MainAction.callDownloadBlob f.digest f.pathFlag
    | some Op.downloadDir =>
        if f.digest = [] then MainAction.exitDigestMissing
        else if f.pathFlag = [] then MainAction.exitPathMissing
        else MainAction.callDownloadDirectory f.digest f.pathFlag
    | some Op.showAction =>
        if f.digest = [] then MainAction.exitDigestMissing
        else MainAction.callShowAction f.digest
    | some Op.reexecuteAction =>
        if f.digest = [] then MainAction.exitDigestMissing
        else MainAction.callReexecuteAction f.digest f.inputRoot
    | some Op.checkDeterminism =>
        if f.digest = [] then MainAction.exitDigestMissing
        else MainAction.callCheckDeterminism f.digest f.inputRoot f.execAttempts
    | some Op.uploadBlob =>
        if f.pathFlag = [] then MainAction.exitPathMissing
        else MainAction.callUploadBlob f.pathFlag
    | some Op.computeTree =>
        if f.pathFlag = [] then MainAction.exitPathMissing
        else MainAction.callComputeTree f.pathFlag
    | none => MainAction.exitUnsupported f.operation supportedOps

/-! Helper lemmas about the string utilities. -/

/-- `splitOnChar` never returns an empty list of pieces. -/
theorem splitOnChar_ne_nil (sep : Char) (l : List Char) : splitOnChar sep l ≠ [] := by
  cases l with
  | nil => simp [splitOnChar]
  | cons c rest =>
    rw [splitOnChar]
    split
    · simp
    · split <;> simp

/-- A one-piece split means the separator does not occur: the piece is the
whole string. -/
theorem splitOnChar_eq_single (sep : Char) (l x : List Char)
    (h : splitOnChar sep l = [x]) : l = x := by
  induction l generalizing x with
  | nil =>
    rw [splitOnChar] at h
    simp at h
    simp [h]
  | cons c rest ih =>
    rw [splitOnChar] at h
    by_cases hc : c = sep
    · rw [if_pos hc] at h
      simp at h
      exact absurd h.2 (splitOnChar_ne_nil sep rest)
    · rw [if_neg hc] at h
      rcases hrec : splitOnChar sep rest with _ | ⟨p, ps⟩
      · exact absurd hrec (splitOnChar_ne_nil sep rest)
      · rw [hrec] at h
        simp at h
        obtain ⟨hx, hps⟩ := h
        subst hps
        have hr : rest = p := ih p (by rw [hrec])
        rw [← hx, hr]

/-- A two-piece split exhibits the unique separator occurrence. -/
theorem splitOnChar_eq_pair (sep : Char) (l k v : List Char)
    (h : splitOnChar sep l = [k, v]) : l = k ++ sep :: v := by
  induction l generalizing k with
  | nil =>
    rw [splitOnChar] at h
    simp at h
  | cons c rest ih =>
    rw [splitOnChar] at h
    by_cases hc : c = sep
    · rw [if_pos hc] at h
      simp at h
      obtain ⟨hk, hv⟩ := h
      subst hk
      subst hc
      rw [splitOnChar_eq_single c rest v hv]
      simp
    · rw [if_neg hc] at h
      rcases hrec : splitOnChar sep rest with _ | ⟨p, ps⟩
      · exact absurd hrec (splitOnChar_ne_nil sep rest)
      · rw [hrec] at h
        simp at h
        obtain ⟨hk, hps⟩ := h
        have hr : rest = p ++ sep :: v := ih p (by rw [hrec, hps])
        rw [← hk, hr]
        simp

/-- A string trims to empty exactly when all its characters are white
space. -/
theorem trimSpace_eq_nil_iff (l : List Char) :
    trimSpace l = [] ↔ ∀ c ∈ l, goIsSpace c = true := by
  unfold trimSpace
  constructor
  · intro h c hc
    rw [List.reverse_eq_nil_iff, List.dropWhile_eq_nil_iff] at h
    have hdrop : ∀ x ∈ l.dropWhile goIsSpace, goIsSpace x = true := by
      intro x hx
      exact h x (by simpa using hx)
    rcases List.mem_append.mp
        ((List.takeWhile_append_dropWhile (p := goIsSpace) (l := l)) ▸ hc) with
      htk | hdr
    · exact List.mem_takeWhile_imp htk
    · exact hdrop c hdr
  · intro h
    have : l.dropWhile goIsSpace = [] := List.dropWhile_eq_nil_iff.mpr h
    simp [this]

/-- A line that splits into two pieces at ':' contains a ':', which is not
white space, so the line is not blank. -/
theorem not_blank_of_split_pair (txt k v : List Char)
    (hsp : splitOnChar (Char.ofNat 58) txt = [k, v]) : ¬ trimSpace txt = [] := by
  intro h
  have hmem : Char.ofNat 58 ∈ txt := by
    rw [splitOnChar_eq_pair _ _ _ _ hsp]
    simp
  have hsp2 := (trimSpace_eq_nil_iff txt).mp h (Char.ofNat 58) hmem
  exact absurd hsp2 (by decide)

/-! Helper lemmas about the loop body. -/

/-- On a blank line, the loop builds the accumulated spec exactly when it
is non-empty, and always continues with the zero spec. -/
theorem processLine_blank (is : InputSpec) (txt : List Char)
    (h : trimSpace txt = []) :
    processLine is txt =
      StepResult.ok InputSpec.emptySpec
        (if is = InputSpec.emptySpec then none else some is) := by
  unfold processLine
  rw [if_pos h]
  rcases is with ⟨i, v⟩
  rcases i with _ | ⟨a, i⟩ <;> rcases v with _ | ⟨b, v⟩ <;>
    simp [InputSpec.emptySpec]

/-- On a line with exactly one ':', the loop keys off the trimmed head
piece. -/
theorem processLine_split (is : InputSpec) (txt k v : List Char)
    (hsp : splitOnChar (Char.ofNat 58) txt = [k, v]) :
    processLine is txt =
      if trimSpace k = ("inputs").toList then
        StepResult.ok { is with inputs := is.inputs ++ [trimSpace v] } none
      else if trimSpace k = ("path").toList then
        StepResult.ok
          { is with virtualInputs :=
              is.virtualInputs ++
                [{ path := trimSpace v, contents := none, isExecutable := false }] }
          none
      else StepResult.fatal (brokenLineMsg txt) := by
  unfold processLine
  rw [if_neg (not_blank_of_split_pair txt k v hsp), hsp]
  simp

/-- `parseLine` on a line with exactly one ':'. -/
theorem parseLine_split (txt k v : List Char)
    (hsp : splitOnChar (Char.ofNat 58) txt = [k, v]) :
    parseLine txt =
      if trimSpace k = ("inputs").toList then some (Entry.input (trimSpace v))
      else if trimSpace k = ("path").toList then some (Entry.vpath (trimSpace v))
      else none := by
  unfold parseLine
  rw [hsp]
  simp

/-- A line that parses splits into exactly two pieces at ':'. -/
theorem parseLine_some_split (txt : List Char) (e : Entry)
    (he : parseLine txt = some e) :
    ∃ k v, splitOnChar (Char.ofNat 58) txt = [k, v] := by
  unfold parseLine at he
  by_cases hl : (splitOnChar (Char.ofNat 58) txt).length ≠ 2
  · rw [if_pos hl] at he
    cases he
  · push_neg at hl
    obtain ⟨a, b, hab⟩ := List.length_eq_two.mp hl
    exact ⟨a, b, hab⟩

/-- A line that parses is not blank. -/
theorem parseLine_some_not_blank (txt : List Char) (e : Entry)
    (he : parseLine txt = some e) : ¬ trimSpace txt = [] := by
  obtain ⟨k, v, hsp⟩ := parseLine_some_split txt e he
  exact not_blank_of_split_pair txt k v hsp

/-- The loop body on a line that parses: the entry is appended, nothing is
built. -/
theorem processLine_parsed (is : InputSpec) (txt : List Char) (e : Entry)
    (he : parseLine txt = some e) :
    processLine is txt = StepResult.ok (addEntry is e) none := by
  obtain ⟨k, v, hsp⟩ := parseLine_some_split txt e he
  rw [parseLine_split txt k v hsp] at he
  rw [processLine_split is txt k v hsp]
  by_cases h1 : trimSpace k = ("inputs").toList
  · rw [if_pos h1] at he ⊢
    injection he with he2
    rw [← he2]
    rfl
  · rw [if_neg h1] at he ⊢
    by_cases h2 : trimSpace k = ("path").toList
    · rw [if_pos h2] at he ⊢
      injection he with he2
      rw [← he2]
      rfl
    · rw [if_neg h2] at he
      cases he

/-- The loop body on a non-blank line that does not parse: the fatal
broken-line exit, echoing the line. -/
theorem processLine_fatal (is : InputSpec) (txt : List Char)
    (hnb : ¬ trimSpace txt = []) (hbad : parseLine txt = none) :
    processLine is txt = StepResult.fatal (brokenLineMsg txt) := by
  unfold processLine
  rw [if_neg hnb]
  unfold parseLine at hbad
  by_cases hl : (splitOnChar (Char.ofNat 58) txt).length ≠ 2
  · rw [if_pos hl]
  · rw [if_neg hl] at hbad ⊢
    by_cases h1 :
        trimSpace ((splitOnChar (Char.ofNat 58) txt).headD []) = ("inputs").toList
    · rw [if_pos h1] at hbad
      cases hbad
    · rw [if_neg h1] at hbad ⊢
      by_cases h2 :
          trimSpace ((splitOnChar (Char.ofNat 58) txt).headD []) = ("path").toList
      · rw [if_pos h2] at hbad
        cases hbad
      · rw [if_neg h2]

/-! Record decomposition of the loop. -/

/-- Unfolding `splitRecords` at a blank head line. -/
theorem splitRecords_cons_blank (l : List Char) (rest : List (List Char))
    (hb : trimSpace l = []) :
    splitRecords (l :: rest) =
      ([] :: (splitRecords rest).1, (splitRecords rest).2) := by
  rw [splitRecords, if_pos hb]

/-- Unfolding `splitRecords` at a non-blank head line when everything
after it is trailing. -/
theorem splitRecords_cons_none (l : List Char) (rest : List (List Char))
    (tr : List (List Char)) (hnb : ¬ trimSpace l = [])
    (h : splitRecords rest = ([], tr)) :
    splitRecords (l :: rest) = ([], l :: tr) := by
  rw [splitRecords, if_neg hnb, h]

/-- Unfolding `splitRecords` at a non-blank head line when a closed record
follows. -/
theorem splitRecords_cons_more (l : List Char) (rest : List (List Char))
    (r : List (List Char)) (cs : List (List (List Char))) (tr : List (List Char))
    (hnb : ¬ trimSpace l = []) (h : splitRecords rest = (r :: cs, tr)) :
    splitRecords (l :: rest) = ((l :: r) :: cs, tr) := by
  rw [splitRecords, if_neg hnb, h]

/-- The loop, started from any accumulated spec, performs exactly the
builds described record-by-record by `closedBuilds`, and ends holding the
trailing record's spec, which it discards. Holds whenever every line is
blank or parses (no fatal exit). -/
theorem runLines_eq_closedBuilds (lines : List (List Char)) : ∀ is : InputSpec,
    (∀ l ∈ lines, trimSpace l = [] ∨ (parseLine l).isSome = true) →
    runLines is lines =
      RunResult.ok (closedBuilds is (splitRecords lines).1)
        (trailingSpec is (splitRecords lines).1 (splitRecords lines).2) := by
  induction lines with
  | nil =>
    intro is h
    simp [runLines, splitRecords, closedBuilds, trailingSpec, recordSpecFrom]
  | cons l rest ih =>
    intro is h
    have hrest : ∀ x ∈ rest, trimSpace x = [] ∨ (parseLine x).isSome = true :=
      fun x hx => h x (List.mem_cons_of_mem l hx)
    rcases h l (List.mem_cons_self l rest) with hb | hp
    · have IH := ih InputSpec.emptySpec hrest
      have hstep : runLines is (l :: rest) =
          match runLines InputSpec.emptySpec rest with
          | RunResult.ok builds fin =>
              RunResult.ok
                ((if is = InputSpec.emptySpec then none else some is).toList ++ builds) fin
          | RunResult.fatal builds msg =>
              RunResult.fatal
                ((if is = InputSpec.emptySpec then none else some is).toList ++ builds) msg := by
        rw [runLines, processLine_blank is l hb]
      rcases hsr : splitRecords rest with ⟨cs, tr⟩
      rw [hsr] at IH
      rw [hstep, IH, splitRecords_cons_blank l rest hb, hsr]
      by_cases his : is = InputSpec.emptySpec <;>
        cases cs <;>
          simp [closedBuilds, trailingSpec, recordSpecFrom, his]
    · obtain ⟨e, he⟩ := Option.isSome_iff_exists.mp hp
      have hnb := parseLine_some_not_blank l e he
      have hstep : runLines is (l :: rest) = runLines (addEntry is e) rest := by
        rw [runLines, processLine_parsed is l e he]
        cases hr : runLines (addEntry is e) rest <;> simp [hr]
      have IH := ih (addEntry is e) hrest
      rcases hsr : splitRecords rest with ⟨cs, tr⟩
      rw [hsr] at IH
      rw [hstep, IH]
      rcases cs with _ | ⟨r, cs2⟩
      · rw [splitRecords_cons_none l rest tr hnb hsr]
        simp [closedBuilds, trailingSpec, recordSpecFrom, recordStep, he]
      · rw [splitRecords_cons_more l rest r cs2 tr hnb hsr]
        simp [closedBuilds, trailingSpec, recordSpecFrom, recordStep, he]

/-- Starting from the zero spec, `closedBuilds` is the non-empty records'
specs in order. -/
theorem closedBuilds_emptySpec (rs : List (List (List Char))) :
    closedBuilds InputSpec.emptySpec rs =
      (rs.map (recordSpecFrom InputSpec.emptySpec)).filter
        (fun s => !(s == InputSpec.emptySpec)) := by
  induction rs with
  | nil => rfl
  | cons r rs ih =>
    rw [closedBuilds, List.map_cons, List.filter_cons, ih]
    by_cases hr : recordSpecFrom InputSpec.emptySpec r = InputSpec.emptySpec <;>
      simp [hr]

/-- Unfolding one blank-line step of the loop. -/
theorem runLines_cons_blank (is : InputSpec) (t : List Char)
    (rest : List (List Char)) (h : trimSpace t = []) :
    runLines is (t :: rest) =
      match runLines InputSpec.emptySpec rest with
      | RunResult.ok builds fin =>
          RunResult.ok
            ((if is = InputSpec.emptySpec then none else some is).toList ++ builds) fin
      | RunResult.fatal builds msg =>
          RunResult.fatal
            ((if is = InputSpec.emptySpec then none else some is).toList ++ builds) msg := by
  rw [runLines, processLine_blank is t h]

/-! Claim theorems. -/

/-- C1 (amended): on a batch spec file every line of which is blank or
well formed, `ComputeTree` triggers exactly one `ComputeMerkleTree` call
per non-empty record that is terminated by a blank line, in record order;
a final record not followed by a blank line is accumulated but never
built. -/
theorem computeTree_one_build_per_terminated_record (lines : List (List Char))
    (h : ∀ l ∈ lines, trimSpace l = [] ∨ (parseLine l).isSome = true) :
    runLines InputSpec.emptySpec lines =
      RunResult.ok
        (((splitRecords lines).1.map (recordSpecFrom InputSpec.emptySpec)).filter
          (fun s => !(s == InputSpec.emptySpec)))
        (recordSpecFrom InputSpec.emptySpec (splitRecords lines).2) := by
  rw [runLines_eq_closedBuilds lines InputSpec.emptySpec h, closedBuilds_emptySpec]
  cases hcs : (splitRecords lines).1 <;> simp [trailingSpec, hcs]

/-- Witness for C1's amended theorem: a concrete two-record batch whose
second record lacks a blank terminator; only the first record is built. -/
theorem computeTree_one_build_per_terminated_record_witness :
    runLines InputSpec.emptySpec
        [("inputs: a.txt").toList, [], ("inputs: c.txt").toList] =
      RunResult.ok [{ inputs := [("a.txt").toList], virtualInputs := [] }]
        { inputs := [("c.txt").toList], virtualInputs := [] } := by
  have h := computeTree_one_build_per_terminated_record
    [("inputs: a.txt").toList, [], ("inputs: c.txt").toList] (by decide)
  rw [h]
  rfl

/-- Counterexample to C1 as stated: a batch file consisting of one
non-empty record (with no trailing blank line) yields zero
`ComputeMerkleTree` calls, not one per non-empty record. -/
theorem unterminated_record_not_built :
    ((specRecords [("inputs: a.txt").toList]).filter (fun r => !r.isEmpty)).length = 1 ∧
    computeTreeBuilds [("inputs: a.txt").toList] = [] := by
  exact ⟨by decide, by decide⟩

/-- C2 (amended): the documented example input parses into exactly the two
documented records, but only the first, blank-terminated record triggers a
tree build; the final record is accumulated and then discarded because the
file ends without a trailing blank line. -/
theorem batch_example_two_records_one_build :
    specRecords (scanLines (("inputs: a.txt\npath: b.txt\n\ninputs: c.txt\n").toList)) =
      [[("inputs: a.txt").toList, ("path: b.txt").toList], [("inputs: c.txt").toList]] ∧
    (specRecords
        (scanLines (("inputs: a.txt\npath: b.txt\n\ninputs: c.txt\n").toList))).map
        (recordSpecFrom InputSpec.emptySpec) =
      [{ inputs := [("a.txt").toList],
         virtualInputs :=
           [{ path := ("b.txt").toList, contents := none, isExecutable := false }] },
       { inputs := [("c.txt").toList], virtualInputs := [] }] ∧
    computeTreeRun (("inputs: a.txt\npath: b.txt\n\ninputs: c.txt\n").toList) =
      RunResult.ok
        [{ inputs := [("a.txt").toList],
           virtualInputs :=
             [{ path := ("b.txt").toList, contents := none, isExecutable := false }] }]
        { inputs := [("c.txt").toList], virtualInputs := [] } := by
  exact ⟨by decide, by decide, by decide⟩

/-- Counterexample to C2 as stated: on the documented example input the
code triggers one tree build, not two. -/
theorem batch_example_not_two_builds :
    ¬ (computeTreeBuilds
        (scanLines (("inputs: a.txt\npath: b.txt\n\ninputs: c.txt\n").toList))).length = 2 := by
  decide

/-- C3 (amended): on the first malformed line the program terminates
immediately via `log.Exitf`, echoing only the offending line's text
(no record or line number); no build happens for the current record and
no later line of the batch file is processed (the remainder `rest` is
arbitrary and unused). -/
theorem malformed_line_aborts_run (is : InputSpec) (txt : List Char)
    (rest : List (List Char)) (hnb : ¬ trimSpace txt = [])
    (hbad : parseLine txt = none) :
    runLines is (txt :: rest) =
      RunResult.fatal [] (("broken line ").toList ++ txt) := by
  rw [runLines, processLine_fatal is txt hnb hbad]
  rfl

/-- Witness for C3's amended theorem at a concrete malformed line followed
by a well-formed line that is consequently never processed. -/
theorem malformed_line_aborts_run_witness :
    runLines InputSpec.emptySpec [("oops").toList, ("inputs: ok.txt").toList] =
      RunResult.fatal [] (("broken line ").toList ++ ("oops").toList) :=
  malformed_line_aborts_run InputSpec.emptySpec (("oops").toList)
    [("inputs: ok.txt").toList] (by decide) (by decide)

/-- Counterexample to C3 as stated: a batch whose first record is
malformed and whose second record is well formed and non-empty produces no
build at all — the subsequent record is not processed, and the error text
carries no record or line number, only the echoed line. -/
theorem malformed_record_kills_subsequent_records :
    runLines InputSpec.emptySpec
        [("bogus").toList, [], ("inputs: a.txt").toList, []] =
      RunResult.fatal [] (("broken line bogus").toList) := by
  decide

/-- C4: a blank line triggers a build exactly when the accumulated spec is
non-empty (the built spec is `some is` iff `is` differs from the zero
spec, and the accumulator is reset either way), and a second consecutive
blank line is an idempotent terminator: deleting it does not change the
run. -/
theorem blank_line_builds_iff_nonempty (is : InputSpec) (t1 t2 : List Char)
    (rest : List (List Char)) (h1 : trimSpace t1 = []) (h2 : trimSpace t2 = []) :
    processLine is t1 =
      StepResult.ok InputSpec.emptySpec
        (if is = InputSpec.emptySpec then none else some is) ∧
    runLines is (t1 :: t2 :: rest) = runLines is (t1 :: rest) := by
  refine ⟨processLine_blank is t1 h1, ?_⟩
  rw [runLines_cons_blank is t1 (t2 :: rest) h1, runLines_cons_blank is t1 rest h1,
    runLines_cons_blank InputSpec.emptySpec t2 rest h2]
  cases hr : runLines InputSpec.emptySpec rest <;> simp [hr]

/-- Witness for C4 at a concrete non-empty accumulated spec, a space-only
blank line, an empty blank line and a trailing line. -/
theorem blank_line_builds_iff_nonempty_witness :
    processLine { inputs := [("x").toList], virtualInputs := [] } ((" ").toList) =
      StepResult.ok InputSpec.emptySpec
        (some { inputs := [("x").toList], virtualInputs := [] }) ∧
    runLines { inputs := [("x").toList], virtualInputs := [] }
        [(" ").toList, [], ("inputs: y").toList] =
      runLines { inputs := [("x").toList], virtualInputs := [] }
        [(" ").toList, ("inputs: y").toList] := by
  have h := blank_line_builds_iff_nonempty
    { inputs := [("x").toList], virtualInputs := [] } ((" ").toList) []
    [("inputs: y").toList] (by decide) (by decide)
  refine ⟨?_, h.2⟩
  rw [h.1]
  rfl

/-- C5 (amended): a line is accepted exactly when it is blank or splits at
':' into exactly two pieces (so the value may not itself contain a ':')
whose trimmed key piece is `inputs` or `path`; every other line, including
a `key: value` line whose value contains a ':', is a fatal broken line. -/
theorem line_accepted_iff_single_colon_known_key (is : InputSpec) (txt : List Char) :
    (∃ is2 b, processLine is txt = StepResult.ok is2 b) ↔
      (trimSpace txt = [] ∨
        ∃ k v, splitOnChar (Char.ofNat 58) txt = [k, v] ∧
          (trimSpace k = ("inputs").toList ∨ trimSpace k = ("path").toList)) := by
  by_cases hb : trimSpace txt = []
  · exact ⟨fun _ => Or.inl hb, fun _ => ⟨_, _, processLine_blank is txt hb⟩⟩
  · rcases hsome : parseLine txt with _ | e
    · constructor
      · rintro ⟨is2, b, hEq⟩
        rw [processLine_fatal is txt hb hsome] at hEq
        cases hEq
      · rintro (h | ⟨k, v, hsp, hk⟩)
        · exact absurd h hb
        · rw [parseLine_split txt k v hsp] at hsome
          rcases hk with hk | hk
          · rw [if_pos hk] at hsome
            cases hsome
          · have hne : ¬ trimSpace k = ("inputs").toList := by
              rw [hk]
              decide
            rw [if_neg hne, if_pos hk] at hsome
            cases hsome
    · constructor
      · intro _
        refine Or.inr ?_
        obtain ⟨k, v, hsp⟩ := parseLine_some_split txt e hsome
        refine ⟨k, v, hsp, ?_⟩
        rw [parseLine_split txt k v hsp] at hsome
        by_cases hk1 : trimSpace k = ("inputs").toList
        · exact Or.inl hk1
        · by_cases hk2 : trimSpace k = ("path").toList
          · exact Or.inr hk2
          · rw [if_neg hk1, if_neg hk2] at hsome
            cases hsome
      · intro _
        exact ⟨_, _, processLine_parsed is txt e hsome⟩

/-- Counterexample to C5 as stated: the line `inputs: a:b` has the form
`key: value` with the recognized key `inputs`, yet it is rejected as a
broken line because its value contains a ':'. -/
theorem colon_in_value_rejected :
    processLine InputSpec.emptySpec (("inputs: a:b").toList) =
      StepResult.fatal (("broken line inputs: a:b").toList) := by
  decide

/-- C6: for the `check_determinism` operation, `main` rejects any
non-positive `--exec_attempts` before dispatching any client call, and for
attempt counts of at least one the value is handed to `CheckDeterminism`
unchanged, together with the digest and input-root flags. -/
theorem checkDeterminism_attempts_validated (f : Flags)
    (hop : f.operation = ("check_determinism").toList) :
    (f.execAttempts ≤ 0 → mainDispatch f = MainAction.exitAttemptsInvalid) ∧
    (1 ≤ f.execAttempts → ¬ f.digest = [] →
      mainDispatch f =
        MainAction.callCheckDeterminism f.digest f.inputRoot f.execAttempts) := by
  constructor
  · intro ha
    unfold mainDispatch
    rw [hop, if_neg (by decide), if_pos ha]
  · intro ha hd
    unfold mainDispatch
    rw [hop, if_neg (by decide), if_neg (by omega)]
    simp only
      [show parseOp (("check_determinism").toList) = some Op.checkDeterminism from by decide]
    rw [if_neg hd]

/-- Witness for C6 at concrete flag values: seven attempts pass through
unchanged, zero attempts exit before any call. -/
theorem checkDeterminism_attempts_validated_witness :
    mainDispatch
        { operation := ("check_determinism").toList, digest := ("abc/3").toList,
          pathFlag := [], inputRoot := ("r").toList, execAttempts := 7 } =
      MainAction.callCheckDeterminism (("abc/3").toList) (("r").toList) 7 ∧
    mainDispatch
        { operation := ("check_determinism").toList, digest := ("abc/3").toList,
          pathFlag := [], inputRoot := ("r").toList, execAttempts := 0 } =
      MainAction.exitAttemptsInvalid := by
  constructor
  · exact (checkDeterminism_attempts_validated _ rfl).2 (by decide) (by decide)
  · exact (checkDeterminism_attempts_validated _ rfl).1 (by decide)

/-- C7 (amended): `download_blob` requires both `--digest` and `--path`:
a missing digest exits, a present digest with a missing path still exits,
and only with both present is the blob download dispatched with those
values (the driver then writes the returned bytes to standard output). -/
theorem downloadBlob_requires_digest_and_path (f : Flags)
    (hop : f.operation = ("download_blob").toList) (ha : 1 ≤ f.execAttempts) :
    (f.digest = [] → mainDispatch f = MainAction.exitDigestMissing) ∧
    (¬ f.digest = [] → f.pathFlag = [] →
      mainDispatch f = MainAction.exitPathMissing) ∧
    (¬ f.digest = [] → ¬ f.pathFlag = [] →
      mainDispatch f = MainAction.callDownloadBlob f.digest f.pathFlag) := by
  have hu : mainDispatch f =
      (if f.digest = [] then MainAction.exitDigestMissing
       else if f.pathFlag = [] then MainAction.exitPathMissing
       else MainAction.callDownloadBlob f.digest f.pathFlag) := by
    unfold mainDispatch
    rw [hop, if_neg (by decide), if_neg (by omega)]
    simp only
      [show parseOp (("download_blob").toList) = some Op.downloadBlob from by decide]
  refine ⟨?_, ?_, ?_⟩
  · intro hd
    rw [hu, if_pos hd]
  · intro hd hp
    rw [hu, if_neg hd, if_pos hp]
  · intro hd hp
    rw [hu, if_neg hd, if_neg hp]

/-- Witness for C7's amended theorem at concrete flag values. -/
theorem downloadBlob_requires_digest_and_path_witness :
    mainDispatch
        { operation := ("download_blob").toList, digest := ("abc/3").toList,
          pathFlag := ("/tmp/out").toList, inputRoot := [], execAttempts := 10 } =
      MainAction.callDownloadBlob (("abc/3").toList) (("/tmp/out").toList) :=
  (downloadBlob_requires_digest_and_path _ rfl (by decide)).2.2 (by decide) (by decide)

/-- Counterexample to C7 as stated: with a digest supplied but no
destination path, `download_blob` exits demanding `--path` instead of
downloading — the digest is not the only required input. -/
theorem downloadBlob_missing_path_exits :
    mainDispatch
        { operation := ("download_blob").toList, digest := ("abc/3").toList,
          pathFlag := [], inputRoot := [], execAttempts := 10 } =
      MainAction.exitPathMissing := by
  decide

/-- C8: `--operation=compute_tree` is dispatched to `ComputeTree` even
though `computeTree` is missing from `supportedOps` — the list printed
both by the `--operation` flag's usage text and by the
unsupported-operation error — which holds exactly the other seven
operations; any unrecognized operation string exits listing exactly that
list. -/
theorem computeTree_dispatched_despite_unlisted (f : Flags)
    (hop : f.operation = ("compute_tree").toList) (ha : 1 ≤ f.execAttempts)
    (hp : ¬ f.pathFlag = []) :
    mainDispatch f = MainAction.callComputeTree f.pathFlag ∧
    ¬ Op.computeTree ∈ supportedOps ∧
    supportedOps =
      [Op.downloadActionResult, Op.showAction, Op.downloadBlob, Op.downloadDir,
       Op.reexecuteAction, Op.checkDeterminism, Op.uploadBlob] ∧
    (∀ g : Flags, parseOp g.operation = none → ¬ g.operation = [] →
      ¬ g.execAttempts ≤ 0 →
      mainDispatch g = MainAction.exitUnsupported g.operation supportedOps) := by
  refine ⟨?_, by decide, rfl, ?_⟩
  · unfold mainDispatch
    rw [hop, if_neg (by decide), if_neg (by omega)]
    simp only
      [show parseOp (("compute_tree").toList) = some Op.computeTree from by decide]
    rw [if_neg hp]
  · intro g hnone hop2 hatt
    unfold mainDispatch
    rw [if_neg hop2, if_neg hatt, hnone]

/-- Witness for C8 at concrete flag values, including a rejected bogus
operation that lists `supportedOps`. -/
theorem computeTree_dispatched_despite_unlisted_witness :
    mainDispatch
        { operation := ("compute_tree").toList, digest := [],
          pathFlag := ("/tmp/spec").toList, inputRoot := [], execAttempts := 10 } =
      MainAction.callComputeTree (("/tmp/spec").toList) ∧
    ¬ Op.computeTree ∈ supportedOps ∧
    mainDispatch
        { operation := ("bogus").toList, digest := [], pathFlag := [],
          inputRoot := [], execAttempts := 10 } =
      MainAction.exitUnsupported (("bogus").toList) supportedOps := by
  have h := computeTree_dispatched_despite_unlisted
    { operation := ("compute_tree").toList, digest := [],
      pathFlag := ("/tmp/spec").toList, inputRoot := [], execAttempts := 10 }
    rfl (by decide) (by decide)
  exact ⟨h.1, h.2.1, h.2.2.2 _ (by decide) (by decide) (by decide)⟩

/-- C9: the parser is whitespace-tolerant: a line of nothing but white
space acts as the blank batch terminator, and on an `inputs` line the key
and the value are both trimmed of surrounding white space before use. -/
theorem computeTree_whitespace_tolerant (is : InputSpec) (ws txt k v : List Char)
    (hws : ∀ c ∈ ws, goIsSpace c = true)
    (hsp : splitOnChar (Char.ofNat 58) txt = [k, v])
    (hk : trimSpace k = ("inputs").toList) :
    processLine is ws =
      StepResult.ok InputSpec.emptySpec
        (if is = InputSpec.emptySpec then none else some is) ∧
    processLine is txt =
      StepResult.ok { is with inputs := is.inputs ++ [trimSpace v] } none := by
  refine ⟨processLine_blank is ws ((trimSpace_eq_nil_iff ws).mpr hws), ?_⟩
  rw [processLine_split is txt k v hsp, if_pos hk]

/-- Witness for C9: a space-only line terminates a batch, and the line
`  inputs :  a.txt  ` yields the input entry `a.txt`. -/
theorem computeTree_whitespace_tolerant_witness :
    processLine InputSpec.emptySpec (("   ").toList) =
      StepResult.ok InputSpec.emptySpec none ∧
    processLine InputSpec.emptySpec (("  inputs :  a.txt  ").toList) =
      StepResult.ok { inputs := [("a.txt").toList], virtualInputs := [] } none := by
  have h := computeTree_whitespace_tolerant InputSpec.emptySpec (("   ").toList)
    (("  inputs :  a.txt  ").toList) (("  inputs ").toList) (("  a.txt  ").toList)
    (by decide) (by decide) (by decide)
  refine ⟨?_, ?_⟩
  · rw [h.1]
    rfl
  · rw [h.2]
    rfl

/-- C10: every `path:` line appends a `VirtualInput` carrying only the
trimmed target path: its contents are absent (`none`) and its executable
flag is `false`. -/
theorem path_line_bare_virtual_input (is : InputSpec) (txt k v : List Char)
    (hsp : splitOnChar (Char.ofNat 58) txt = [k, v])
    (hk : trimSpace k = ("path").toList) :
    processLine is txt =
      StepResult.ok
        { is with virtualInputs :=
            is.virtualInputs ++
              [{ path := trimSpace v, contents := none, isExecutable := false }] }
        none := by
  have hne : ¬ trimSpace k = ("inputs").toList := by
    rw [hk]
    decide
  rw [processLine_split is txt k v hsp, if_neg hne, if_pos hk]

/-- Witness for C10 at the concrete line `path: b.txt`. -/
theorem path_line_bare_virtual_input_witness :
    processLine InputSpec.emptySpec (("path: b.txt").toList) =
      StepResult.ok
        { inputs := [],
          virtualInputs :=
            [{ path := ("b.txt").toList, contents := none, isExecutable := false }] }
        none := by
  have h := path_line_bare_virtual_input InputSpec.emptySpec (("path: b.txt").toList)
    (("path").toList) ((" b.txt").toList) (by decide) (by decide)
  rw [h]
  rfl

end Remotetool
